import Mathlib

/-!
Shallow embedding of the rquickjs safety layer (src/lib.rs, src/context/mod.rs,
src/value/array.rs) for checking the natural-language specification.

The native quickjs engine is an external collaborator of this crate; where a
definition models its capability surface (or a crate module whose source is
not part of this corpus, such as value/mod.rs helpers), the doc comment says
so explicitly.  Everything else is translated directly from the Rust source.
-/

namespace Rquickjs

/-- A property value stored on a modelled engine object.  The bridge code only
ever stores strings (message, fileName, stack) and 32-bit integers
(lineNumber) on error objects, so the model carries these two shapes. -/
inductive JSProp where
  | str (s : String)
  | int (n : Int)
deriving DecidableEq

/-- Association-list lookup over an object's own properties, first match wins.
Mirrors property lookup on the engine side of qjs::JS_GetPropertyStr. -/
def lookupProp (k : String) : List (String × JSProp) → Option JSProp
  | [] => none
  | (a, v) :: rest => if k = a then some v else lookupProp k rest

/-- Modelled engine object: the error-like flag (qjs built-in Error class
check used by Object::is_error) plus its own named properties. -/
structure JSObject where
  isError : Bool
  props : List (String × JSProp)
deriving DecidableEq

def JSObject.lookup (o : JSObject) (k : String) : Option JSProp :=
  lookupProp k o.props

/-- Object::set: appends/overwrites a named property.  Modelled from the spec:
property writes on a live object succeed (allocation failure is out of scope
for the model, the source propagates it with the question-mark operator). -/
def JSObject.setProp (o : JSObject) (k : String) (v : JSProp) : JSObject :=
  { o with props := o.props ++ [(k, v)] }

/-- Modelled from the spec: qjs::JS_NewError constructs a fresh native Error
object with no own properties; it is recognized as error-like. -/
def JSObject.newError : JSObject :=
  { isError := true, props := [] }

/-- The crate's error taxonomy (quick_error! enum Error in src/lib.rs).
Causes carried by the source (NulError, Utf8Error, io::Error) are modelled by
their display strings. -/
inductive Error where
  | Allocation
  | InvalidString (cause : String)
  | Utf8 (cause : String)
  | Unknown
  | Exception (message file : String) (line : Int) (stack : String)
  | FromJs (tyFrom tyTo : String) (message : Option String)
  | IntoJs (tyFrom tyTo : String) (message : Option String)
  | IoError (cause : String)
deriving DecidableEq

/-- The quick_error! display strings of enum Error, used by Error::to_cstring
(which appends and then pops a NUL, so it carries exactly this text). -/
def Error.display : Error → String
  | .Allocation => "Allocation failed while creating object"
  | .InvalidString c => "string contained internal null bytes: " ++ c
  | .Utf8 c => "Conversion from string failed: " ++ c
  | .Unknown => "quickjs library created a unknown error"
  | .Exception message file line stack =>
      "exception generated by quickjs: [" ++ file ++ "]:" ++ toString line
        ++ " " ++ message ++ "\n" ++ stack
  | .FromJs f t m =>
      "error converting from js from type \x27" ++ f ++ "\x27, to \x27" ++ t
        ++ "\x27: " ++ m.getD ""
  | .IntoJs f t m =>
      "error converting from type \x27" ++ f ++ "\x27, to \x27" ++ t
        ++ "\x27: " ++ m.getD ""
  | .IoError c => "IO Error: " ++ c

/-- Modelled from the spec: Object::get at a host string target (value/mod.rs
and value/string.rs are not part of this corpus) reads the named property and
fails with a conversion error when it is absent or not a string, so that the
caller's unwrap_or_else default applies. -/
def JSObject.getStr (o : JSObject) (k : String) : Except Error String :=
  match o.lookup k with
  | some (.str s) => .ok s
  | some (.int _) => .error (.FromJs "int" "string" none)
  | none => .error (.FromJs "undefined" "string" none)

/-- Modelled from the spec: Object::get at a host i32 target reads the named
property and fails with a conversion error when it is absent or not an Int. -/
def JSObject.getInt (o : JSObject) (k : String) : Except Error Int :=
  match o.lookup k with
  | some (.int n) => .ok n
  | some (.str _) => .error (.FromJs "string" "int" none)
  | none => .error (.FromJs "undefined" "int" none)

/-- Result::unwrap_or_else with a constant fallback, as used on each optional
error field in the FromJs impl for Error. -/
def exceptD {α : Type} (e : Except Error α) (d : α) : α :=
  match e with
  | .ok a => a
  | .error _ => d

/-- impl FromJs for Error (src/lib.rs lines 169-187): an error-like object
becomes Error::Exception with each field read from the object and defaulted
on failure; any other object becomes a FromJs conversion error. -/
def Error.fromJs (obj : JSObject) : Except Error Error :=
  if obj.isError then
    .ok (.Exception
      (exceptD (obj.getStr "message") "")
      (exceptD (obj.getStr "fileName") "")
      (exceptD (obj.getInt "lineNumber") (-1))
      (exceptD (obj.getStr "stack") ""))
  else
    .error (.FromJs "object" "error" none)

/-- impl IntoJs for &Error (src/lib.rs lines 189-221): build a fresh native
Error object; for Error::Exception set only the non-empty / non-negative
fields, in source order; for every other kind set message to the display
string. -/
def Error.intoJs (e : Error) : JSObject :=
  let obj := JSObject.newError
  match e with
  | .Exception message file line stack =>
    let obj := if message = "" then obj else obj.setProp "message" (.str message)
    let obj := if file = "" then obj else obj.setProp "fileName" (.str file)
    let obj := if 0 ≤ line then obj.setProp "lineNumber" (.int line) else obj
    let obj := if stack = "" then obj else obj.setProp "stack" (.str stack)
    obj
  | e => obj.setProp "message" (.str e.display)

/-- Observable effect of Error::throw on the engine: which native throw entry
point is taken and with what payload. -/
inductive ThrowEffect where
  | outOfMemory
  | typeError (message : String)
  | internalError (message : String)
  | throwValue (value : JSObject)
deriving DecidableEq

def ThrowEffect.isInternalError : ThrowEffect → Bool
  | .internalError _ => true
  | _ => false

/-- Error::throw (src/lib.rs lines 148-166): Allocation raises out-of-memory;
the string/conversion kinds raise a TypeError with the formatted message;
Unknown raises an InternalError; the remaining catch-all arm (Exception and
the IO kind) converts self via into_js and throws the resulting value. -/
def Error.throw (e : Error) : ThrowEffect :=
  match e with
  | .Allocation => .outOfMemory
  | .InvalidString _ | .Utf8 _ | .FromJs _ _ _ | .IntoJs _ _ _ =>
      .typeError e.display
  | .Unknown => .internalError e.display
  | _ => .throwValue e.intoJs

/-- Modelled from the spec: the engine keeps a per-context exception slot; a
pending thrown value is an engine object here (the bridge paths under proof
only deal in objects). -/
structure EngineState where
  pendingException : Option JSObject
deriving DecidableEq

/-- Modelled from the spec: value::get_exception (value/mod.rs is not part of
this corpus) drains the pending exception slot and converts the thrown value
through the Error/Exception Bridge; when nothing is pending despite the
failure sentinel it reports Unknown to keep the taxonomy total. -/
def get_exception (st : EngineState) : Error :=
  match st.pendingException with
  | some obj =>
    match Error.fromJs obj with
    | .ok e => e
    | .error e => e
  | none => .Unknown

/-- Outcome of one native coercion call: the returned status and the value
written through the out-pointer. -/
structure NativeCall (α : Type) where
  status : Int
  out : α
deriving DecidableEq

/-- Opaque carrier for the f64 out-parameter of qjs::JS_ToFloat64: the payload
is uninterpreted (raw bit pattern), only the status logic is under proof. -/
abbrev F64Bits := Nat

/-- Ctx::coerce_i32 (src/context/mod.rs lines 174-182): negative native status
maps to the pending-exception error, otherwise Ok with the out value. -/
def Ctx.coerce_i32 (st : EngineState) (native : NativeCall Int) : Except Error Int :=
  if native.status < 0 then .error (get_exception st) else .ok native.out

/-- Ctx::coerce_i64 (src/context/mod.rs lines 184-192), same status logic. -/
def Ctx.coerce_i64 (st : EngineState) (native : NativeCall Int) : Except Error Int :=
  if native.status < 0 then .error (get_exception st) else .ok native.out

/-- Ctx::coerce_u64 (src/context/mod.rs lines 194-202, qjs::JS_ToIndex),
same status logic, unsigned out value. -/
def Ctx.coerce_u64 (st : EngineState) (native : NativeCall Nat) : Except Error Nat :=
  if native.status < 0 then .error (get_exception st) else .ok native.out

/-- Ctx::coerce_f64 (src/context/mod.rs lines 204-212), same status logic. -/
def Ctx.coerce_f64 (st : EngineState) (native : NativeCall F64Bits) : Except Error F64Bits :=
  if native.status < 0 then .error (get_exception st) else .ok native.out

/-- Ctx::coerce_bool (src/context/mod.rs lines 214-222): qjs::JS_ToBool
returns the status and the value in one integer; negative maps to the
pending-exception error, otherwise Ok(val == 1). -/
def Ctx.coerce_bool (st : EngineState) (native : Int) : Except Error Bool :=
  if native < 0 then .error (get_exception st) else .ok (decide (native = 1))

/-- Modelled from the spec: evaluation flag bits of the engine capability
surface (flags select global-script vs module, strict mode, compile-only). -/
def JS_EVAL_TYPE_GLOBAL : Nat := 0

def JS_EVAL_TYPE_MODULE : Nat := 1

def JS_EVAL_TYPE_MASK : Nat := 3

def JS_EVAL_FLAG_STRICT : Nat := 8

def JS_EVAL_FLAG_COMPILE_ONLY : Nat := 32

/-- The request Ctx::_eval hands to qjs::JS_Eval: source text, file name and
evaluation flags. -/
structure EvalRequest where
  source : String
  fileName : String
  flags : Nat
deriving DecidableEq

/-- Ctx::_eval (src/context/mod.rs lines 123-135): forwards source, file name
and flags to the native JS_Eval call. -/
def Ctx.evalRaw (source fileName : String) (flags : Nat) : EvalRequest :=
  { source := source, fileName := fileName, flags := flags }

/-- Ctx::eval (src/context/mod.rs lines 137-146): file name is the fixed
"eval_script" and the flags are JS_EVAL_TYPE_GLOBAL bitor JS_EVAL_FLAG_STRICT;
the caller supplies only the source. -/
def Ctx.eval (source : String) : EvalRequest :=
  Ctx.evalRaw source "eval_script" (JS_EVAL_TYPE_GLOBAL ||| JS_EVAL_FLAG_STRICT)

/-- Tagged engine value as seen through the wrapper (undefined, null, bool,
int, object); enough structure for the array claims. -/
inductive JSValue where
  | undefinedV
  | nullV
  | boolV (b : Bool)
  | intV (n : Int)
  | objV (o : JSObject)
deriving DecidableEq

/-- Type name of a value, as used in FromJs mismatch errors. -/
def JSValue.typeName : JSValue → String
  | .undefinedV => "undefined"
  | .nullV => "null"
  | .boolV _ => "bool"
  | .intV _ => "int"
  | .objV _ => "object"

/-- Modelled engine array handle behind value/array.rs: its named properties
(including "length") and its dense indexed elements. -/
structure JsArray where
  props : List (String × JSProp)
  elems : List JSValue
deriving DecidableEq

/-- Construction invariant of Array::from_js_value, modelled from the spec:
the wrapped handle is a genuine engine array, so its live "length" property
is an Int-tagged value holding the element count. -/
def GenuineArray (a : JsArray) : Prop :=
  lookupProp "length" a.props = some (.int (a.elems.length : Int))

/-- Array::len (src/value/array.rs lines 26-34): read the live "length"
property, assert the Int tag (a failed assertion is modelled as none), and
return the integer as a usize. -/
def JsArray.len (a : JsArray) : Option Nat :=
  match lookupProp "length" a.props with
  | some (.int n) => some n.toNat
  | _ => none

/-- Modelled from the spec: qjs::JS_GetPropertyUint32 on an engine array with
the given dense elements; an in-range index reads the element and an
out-of-range read yields Undefined. -/
def JsArray.getProp (a : JsArray) (idx : Nat) : JSValue :=
  a.elems.getD idx .undefinedV

/-- Modelled from the spec: FromJs at a host i32 target must not assume a
specific variant; Int converts, everything else is a conversion error naming
the mismatch. -/
def fromJsInt : JSValue → Except Error Int
  | .intV n => .ok n
  | v => .error (.FromJs v.typeName "int" none)

/-- Array::get (src/value/array.rs lines 41-48): fetch the property at the
numeric index with no bounds pre-check, then convert the resulting value with
the requested FromJs conversion. -/
def JsArray.get {α : Type} (conv : JSValue → Except Error α)
    (a : JsArray) (idx : Nat) : Except Error α :=
  conv (a.getProp idx)

/-- Phase of one host thread executing Context::with (src/context/mod.rs
lines 91-101) against a shared runtime. -/
inductive WithPhase where
  | start
  | inClosure
  | done
deriving DecidableEq

/-- Two host threads each invoking Context::with against the same runtime
(possibly through different Context values sharing one rt mutex). -/
structure WithSys where
  t1 : WithPhase
  t2 : WithPhase
deriving DecidableEq

/-- One interleaving step: the lock acquire of line 95 succeeds only while no
other invocation is inside its closure (the guard is held for the whole
closure body); leaving the closure — by the explicit drop of line 99 on
normal return, or by the guard's drop during an unwind — releases the gate.
A fresh Ctx token is manufactured at each acquire (line 96). -/
inductive WithStep : WithSys → WithSys → Prop where
  | acquire1 (s : WithSys) (h1 : s.t1 = .start) (h2 : s.t2 ≠ .inClosure) :
      WithStep s { s with t1 := .inClosure }
  | release1 (s : WithSys) (h1 : s.t1 = .inClosure) :
      WithStep s { s with t1 := .done }
  | acquire2 (s : WithSys) (h1 : s.t2 = .start) (h2 : s.t1 ≠ .inClosure) :
      WithStep s { s with t2 := .inClosure }
  | release2 (s : WithSys) (h1 : s.t2 = .inClosure) :
      WithStep s { s with t2 := .done }

/-- States reachable from both threads about to call Context::with. -/
inductive WithReach : WithSys → Prop where
  | init : WithReach ⟨.start, .start⟩
  | step (s s2 : WithSys) : WithReach s → WithStep s s2 → WithReach s2

/-- Spec-side reading of a string-valued error field: the property's string
content when it is readable, the empty-string fallback otherwise. -/
def specStrField (o : JSObject) (k : String) : String :=
  match o.lookup k with
  | some (.str s) => s
  | _ => ""

/-- Spec-side reading of the integer lineNumber field, falling back to -1. -/
def specIntField (o : JSObject) (k : String) : Int :=
  match o.lookup k with
  | some (.int n) => n
  | _ => -1

lemma exceptD_getStr (o : JSObject) (k : String) :
    exceptD (o.getStr k) "" = specStrField o k := by
  cases h : o.lookup k with
  | none => simp [exceptD, JSObject.getStr, specStrField, h]
  | some v => cases v <;> simp [exceptD, JSObject.getStr, specStrField, h]

lemma exceptD_getInt (o : JSObject) (k : String) :
    exceptD (o.getInt k) (-1) = specIntField o k := by
  cases h : o.lookup k with
  | none => simp [exceptD, JSObject.getInt, specIntField, h]
  | some v => cases v <;> simp [exceptD, JSObject.getInt, specIntField, h]

/-- Claim C6: converting the host error Exception with message "boom" and
absent file (empty), line (-1) and stack (empty) into an engine value and
converting that value back yields an Exception whose message is exactly
"boom" and whose file, line and stack stay absent (empty, -1, empty).  The
throw/catch pair in between hands the identical thrown value back, so the
round trip composes the outbound and inbound bridges. -/
theorem exception_round_trip :
    Error.fromJs ((Error.Exception "boom" "" (-1) "").intoJs)
      = .ok (.Exception "boom" "" (-1) "") := rfl

/-- Claim C5 counterexample: for the IO kind, Error::throw does not raise an
InternalError-like exception (the claim says every kind other than
Allocation, the string/conversion kinds and Exception does); it instead
converts the error via into_js and throws the resulting Error object. -/
theorem throw_io_counterexample :
    (Error.throw (.IoError "file not found")).isInternalError = false ∧
    Error.throw (.IoError "file not found")
      = .throwValue ((Error.IoError "file not found").intoJs) :=
  ⟨rfl, rfl⟩

/-- Claim C5 (amended): Allocation raises out-of-memory; InvalidString, Utf8,
FromJs and IntoJs raise a TypeError-like exception carrying the formatted
message; only Unknown raises an InternalError-like exception; every remaining
kind (structured Exception and IO) is converted to a native Error object via
into_js and thrown as a value. -/
theorem throw_mapping (s f t : String) (m : Option String)
    (message file stack : String) (line : Int) :
    Error.throw .Allocation = .outOfMemory ∧
    Error.throw (.InvalidString s) = .typeError (Error.display (.InvalidString s)) ∧
    Error.throw (.Utf8 s) = .typeError (Error.display (.Utf8 s)) ∧
    Error.throw (.FromJs f t m) = .typeError (Error.display (.FromJs f t m)) ∧
    Error.throw (.IntoJs f t m) = .typeError (Error.display (.IntoJs f t m)) ∧
    Error.throw .Unknown = .internalError (Error.display .Unknown) ∧
    Error.throw (.Exception message file line stack)
      = .throwValue ((Error.Exception message file line stack).intoJs) ∧
    Error.throw (.IoError s) = .throwValue ((Error.IoError s).intoJs) :=
  ⟨rfl, rfl, rfl, rfl, rfl, rfl, rfl, rfl⟩

/-- Claim C9: Ctx::eval always evaluates its source as a global script with
strict mode enabled and file name "eval_script"; since the operation is a
function of the source alone, the caller cannot select module evaluation,
non-strict mode, compile-only, or a different file name through it. -/
theorem eval_fixed_script_flags (source : String) :
    Ctx.eval source =
      { source := source, fileName := "eval_script",
        flags := JS_EVAL_TYPE_GLOBAL ||| JS_EVAL_FLAG_STRICT } ∧
    (Ctx.eval source).flags &&& JS_EVAL_TYPE_MASK = JS_EVAL_TYPE_GLOBAL ∧
    (Ctx.eval source).flags &&& JS_EVAL_FLAG_STRICT = JS_EVAL_FLAG_STRICT ∧
    (Ctx.eval source).flags &&& JS_EVAL_FLAG_COMPILE_ONLY = 0 := by
  refine ⟨rfl, ?_, ?_, ?_⟩ <;> simp only [Ctx.eval, Ctx.evalRaw] <;> decide

/-- Claim C7: under the construction invariant (the wrapped handle is a
genuine engine array), Array::len reads the live "length" property, the
Int-tag assertion never fails (len is some, never the assertion-failure
none), and the returned usize is that integer, the element count. -/
theorem array_len_int_tag (a : JsArray) (h : GenuineArray a) :
    lookupProp "length" a.props = some (.int (a.elems.length : Int)) ∧
    a.len = some a.elems.length := by
  refine ⟨h, ?_⟩
  unfold GenuineArray at h
  simp [JsArray.len, h]

/-- Witness for array_len_int_tag at a concrete two-element array. -/
theorem array_len_int_tag_witness :
    JsArray.len ⟨[("length", JSProp.int 2)], [.intV 5, .nullV]⟩ = some 2 := by
  have h := array_len_int_tag ⟨[("length", JSProp.int 2)], [.intV 5, .nullV]⟩ rfl
  simpa using h.2

/-- Claim C8: Array::get performs no bounds pre-check: it converts whatever
the engine hands back for the numeric index, so an out-of-range index yields
the engine's Undefined value, and converting Undefined at a host type that
cannot represent it (here i32) produces a conversion error. -/
theorem array_get_no_bounds_check {α : Type} (conv : JSValue → Except Error α)
    (a : JsArray) (idx : Nat) :
    JsArray.get conv a idx = conv (a.getProp idx) ∧
    (a.elems.length ≤ idx → a.getProp idx = .undefinedV ∧
      JsArray.get fromJsInt a idx = .error (.FromJs "undefined" "int" none)) := by
  refine ⟨rfl, fun h => ?_⟩
  have hu : a.getProp idx = .undefinedV := by
    simp [JsArray.getProp, List.getD, List.getElem?_eq_none h]
  exact ⟨hu, by simp [JsArray.get, hu, fromJsInt, JSValue.typeName]⟩

/-- Witness for array_get_no_bounds_check: reading index 2 of a two-element
array yields the Undefined-to-i32 conversion error. -/
theorem array_get_no_bounds_check_witness :
    JsArray.get fromJsInt ⟨[("length", JSProp.int 2)], [.intV 5, .intV 6]⟩ 2
      = .error (.FromJs "undefined" "int" none) := by
  have h := array_get_no_bounds_check fromJsInt
    ⟨[("length", JSProp.int 2)], [.intV 5, .intV 6]⟩ 2
  exact (h.2 (by decide)).2

/-- Claim C2: each of coerce_i32, coerce_i64, coerce_u64, coerce_f64 and
coerce_bool maps a negative native status to the error fetched from the
engine's current exception slot and any other status to Ok with the coerced
value (for coerce_bool, the truth value of status = 1). -/
theorem coerce_status_spec (st : EngineState) (ni nl : NativeCall Int)
    (nu : NativeCall Nat) (nf : NativeCall F64Bits) (nb : Int) :
    (ni.status < 0 → Ctx.coerce_i32 st ni = .error (get_exception st)) ∧
    (0 ≤ ni.status → Ctx.coerce_i32 st ni = .ok ni.out) ∧
    (nl.status < 0 → Ctx.coerce_i64 st nl = .error (get_exception st)) ∧
    (0 ≤ nl.status → Ctx.coerce_i64 st nl = .ok nl.out) ∧
    (nu.status < 0 → Ctx.coerce_u64 st nu = .error (get_exception st)) ∧
    (0 ≤ nu.status → Ctx.coerce_u64 st nu = .ok nu.out) ∧
    (nf.status < 0 → Ctx.coerce_f64 st nf = .error (get_exception st)) ∧
    (0 ≤ nf.status → Ctx.coerce_f64 st nf = .ok nf.out) ∧
    (nb < 0 → Ctx.coerce_bool st nb = .error (get_exception st)) ∧
    (0 ≤ nb → Ctx.coerce_bool st nb = .ok (decide (nb = 1))) := by
  unfold Ctx.coerce_i32 Ctx.coerce_i64 Ctx.coerce_u64 Ctx.coerce_f64 Ctx.coerce_bool
  refine ⟨fun h => ?_, fun h => ?_, fun h => ?_, fun h => ?_, fun h => ?_,
    fun h => ?_, fun h => ?_, fun h => ?_, fun h => ?_, fun h => ?_⟩ <;>
    simp [h, not_lt.mpr]

/-- Witness for coerce_status_spec: both status polarities of all five
coercions evaluated at concrete native outcomes with an empty slot. -/
theorem coerce_status_spec_witness :
    Ctx.coerce_i32 ⟨none⟩ ⟨-1, 0⟩ = .error (get_exception ⟨none⟩) ∧
    Ctx.coerce_i32 ⟨none⟩ ⟨0, 7⟩ = .ok 7 ∧
    Ctx.coerce_i64 ⟨none⟩ ⟨-2, 0⟩ = .error (get_exception ⟨none⟩) ∧
    Ctx.coerce_i64 ⟨none⟩ ⟨1, 9⟩ = .ok 9 ∧
    Ctx.coerce_u64 ⟨none⟩ ⟨-1, 0⟩ = .error (get_exception ⟨none⟩) ∧
    Ctx.coerce_u64 ⟨none⟩ ⟨0, 4⟩ = .ok 4 ∧
    Ctx.coerce_f64 ⟨none⟩ ⟨-1, 0⟩ = .error (get_exception ⟨none⟩) ∧
    Ctx.coerce_f64 ⟨none⟩ ⟨0, 3⟩ = .ok 3 ∧
    Ctx.coerce_bool ⟨none⟩ (-1) = .error (get_exception ⟨none⟩) ∧
    Ctx.coerce_bool ⟨none⟩ 0 = .ok false := by
  have hneg := coerce_status_spec ⟨none⟩ ⟨-1, 0⟩ ⟨-2, 0⟩ ⟨-1, 0⟩ ⟨-1, 0⟩ (-1)
  have hpos := coerce_status_spec ⟨none⟩ ⟨0, 7⟩ ⟨1, 9⟩ ⟨0, 4⟩ ⟨0, 3⟩ 0
  refine ⟨hneg.1 (by decide), hpos.2.1 (by decide), hneg.2.2.1 (by decide),
    hpos.2.2.2.1 (by decide), hneg.2.2.2.2.1 (by decide),
    hpos.2.2.2.2.2.1 (by decide), hneg.2.2.2.2.2.2.1 (by decide),
    hpos.2.2.2.2.2.2.2.1 (by decide), hneg.2.2.2.2.2.2.2.2.1 (by decide), ?_⟩
  simpa using hpos.2.2.2.2.2.2.2.2.2 (by decide)

/-- Claim C10: coerce_bool returns Ok true exactly when the native call
returns 1; any other non-negative status yields Ok false; a negative status
yields the pending-exception error. -/
theorem coerce_bool_one (st : EngineState) (native : Int) :
    (Ctx.coerce_bool st native = .ok true ↔ native = 1) ∧
    (0 ≤ native → native ≠ 1 → Ctx.coerce_bool st native = .ok false) ∧
    (native < 0 → Ctx.coerce_bool st native = .error (get_exception st)) := by
  unfold Ctx.coerce_bool
  split_ifs with hlt
  · refine ⟨?_, ?_, fun h => rfl⟩
    · constructor
      · intro h; cases h
      · intro h; omega
    · intro h1 h2; omega
  · refine ⟨?_, ?_, fun h => absurd h hlt⟩
    · constructor
      · intro h
        have := Except.ok.inj h
        simpa using this
      · intro h; simp [h]
    · intro h1 h2; simp [h2]

/-- Witness for coerce_bool_one: native statuses 1, 2 and -1 with an empty
exception slot. -/
theorem coerce_bool_one_witness :
    Ctx.coerce_bool ⟨none⟩ 1 = .ok true ∧
    Ctx.coerce_bool ⟨none⟩ 2 = .ok false ∧
    Ctx.coerce_bool ⟨none⟩ (-1) = .error (get_exception ⟨none⟩) := by
  have h1 := coerce_bool_one ⟨none⟩ 1
  have h2 := coerce_bool_one ⟨none⟩ 2
  have h3 := coerce_bool_one ⟨none⟩ (-1)
  exact ⟨h1.1.mpr rfl, h2.2.1 (by decide) (by decide), h3.2.2 (by decide)⟩

/-- Claim C3: converting a structured Exception host error outbound builds a
native Error object on which exactly the non-empty string fields (message,
file, stack) and a non-negative line are set as message, fileName,
lineNumber and stack; empty fields and a negative line stay unset, and no
other property is set. -/
theorem intoJs_exception_fields (message file stack : String) (line : Int) :
    ((Error.Exception message file line stack).intoJs).isError = true ∧
    ((Error.Exception message file line stack).intoJs).lookup "message"
      = (if message = "" then none else some (.str message)) ∧
    ((Error.Exception message file line stack).intoJs).lookup "fileName"
      = (if file = "" then none else some (.str file)) ∧
    ((Error.Exception message file line stack).intoJs).lookup "lineNumber"
      = (if 0 ≤ line then some (.int line) else none) ∧
    ((Error.Exception message file line stack).intoJs).lookup "stack"
      = (if stack = "" then none else some (.str stack)) ∧
    (∀ k, k ≠ "message" → k ≠ "fileName" → k ≠ "lineNumber" → k ≠ "stack" →
      ((Error.Exception message file line stack).intoJs).lookup k = none) := by
  dsimp only [Error.intoJs]
  split_ifs with h1 h2 h3 h4 <;>
    refine ⟨rfl, ?_, ?_, ?_, ?_, fun k hk1 hk2 hk3 hk4 => ?_⟩ <;>
    simp_all [JSObject.lookup, JSObject.setProp, JSObject.newError, lookupProp]

/-- Witness for intoJs_exception_fields: a message-only exception sets only
the message property, and an unrelated key stays unset. -/
theorem intoJs_exception_fields_witness :
    ((Error.Exception "boom" "" (-1) "").intoJs).lookup "message"
      = some (.str "boom") ∧
    ((Error.Exception "boom" "" (-1) "").intoJs).lookup "fileName" = none ∧
    ((Error.Exception "boom" "" (-1) "").intoJs).lookup "lineNumber" = none ∧
    ((Error.Exception "boom" "" (-1) "").intoJs).lookup "stack" = none ∧
    ((Error.Exception "boom" "" (-1) "").intoJs).lookup "columnNumber" = none := by
  have h := intoJs_exception_fields "boom" "" "" (-1)
  exact ⟨by simpa using h.2.1, by simpa using h.2.2.1, by simpa using h.2.2.2.1,
    by simpa using h.2.2.2.2.1,
    h.2.2.2.2.2 "columnNumber" (by decide) (by decide) (by decide) (by decide)⟩

/-- Claim C4: converting a thrown object inbound always succeeds when the
object is error-like, producing Exception with each field read from the
message, fileName, lineNumber and stack properties and unreadable fields
falling back to the empty string (or -1 for line); a non-error-like object
produces the FromJs error from object to error with no message. -/
theorem error_fromJs_spec (obj : JSObject) :
    (obj.isError = true →
      Error.fromJs obj = .ok (.Exception (specStrField obj "message")
        (specStrField obj "fileName") (specIntField obj "lineNumber")
        (specStrField obj "stack"))) ∧
    (obj.isError = false →
      Error.fromJs obj = .error (.FromJs "object" "error" none)) := by
  constructor
  · intro h
    unfold Error.fromJs
    rw [if_pos h, exceptD_getStr, exceptD_getStr, exceptD_getInt, exceptD_getStr]
  · intro h
    unfold Error.fromJs
    rw [if_neg]
    simp [h]

/-- Witness for error_fromJs_spec: an error-like object carrying message and
lineNumber converts with defaults for the missing fields, and a
non-error-like object yields the FromJs mismatch. -/
theorem error_fromJs_spec_witness :
    Error.fromJs ⟨true, [("message", .str "m"), ("lineNumber", .int 3)]⟩
      = .ok (.Exception "m" "" 3 "") ∧
    Error.fromJs ⟨false, []⟩ = .error (.FromJs "object" "error" none) := by
  have h1 := (error_fromJs_spec ⟨true, [("message", .str "m"), ("lineNumber", .int 3)]⟩).1 rfl
  have h2 := (error_fromJs_spec ⟨false, []⟩).2 rfl
  refine ⟨?_, h2⟩
  simpa [specStrField, specIntField, JSObject.lookup, lookupProp] using h1

/-- Claim C1: Context::with holds the runtime's exclusive gate for the whole
closure invocation and releases it on every exit path, so in every reachable
interleaving of two with invocations against the same engine no two closure
bodies are simultaneously active.  (The freshness and scope-confinement of
the Ctx token itself is a compile-time lifetime property outside this
operational model.) -/
theorem with_mutual_exclusion (s : WithSys) (h : WithReach s) :
    ¬(s.t1 = .inClosure ∧ s.t2 = .inClosure) := by
  induction h with
  | init => rintro ⟨h1, -⟩; simp at h1
  | step s s2 hr hstep ih =>
    cases hstep with
    | acquire1 h1 h2 => rintro ⟨-, hc2⟩; exact h2 (by simpa using hc2)
    | release1 h1 => rintro ⟨hc1, -⟩; simp at hc1
    | acquire2 h1 h2 => rintro ⟨hc1, -⟩; exact h2 (by simpa using hc1)
    | release2 h1 => rintro ⟨-, hc2⟩; simp at hc2

/-- Witness for with_mutual_exclusion at the reachable state in which thread
one has acquired the gate and entered its closure. -/
theorem with_mutual_exclusion_witness :
    ¬((⟨.inClosure, .start⟩ : WithSys).t1 = .inClosure ∧
      (⟨.inClosure, .start⟩ : WithSys).t2 = .inClosure) :=
  with_mutual_exclusion ⟨.inClosure, .start⟩
    (WithReach.step ⟨.start, .start⟩ ⟨.inClosure, .start⟩ WithReach.init
      (WithStep.acquire1 ⟨.start, .start⟩ rfl (by decide)))

end Rquickjs
